import Mathlib

/-!
# Trust-bootstrap resolution of `node/services/config.go`

A shallow embedding of the two resolvers of `node/services/config.go`,

* `Config.trustedPeers` (lines 45-65) and
* `Config.trustedHash` (lines 67-76),

together with the part of Go's `encoding/hex` that `trustedHash` calls.

Conventions of the embedding.

* A Go `string` and a Go `[]byte` are both finite byte sequences; they are
  modelled as `List Nat`, one entry per byte.  The `nil` slice and the
  zero-length slice are both `[]`: the source only ever asks for `len`.
* A Go call returning `(value, error)` is modelled as a pair whose second
  component is `none` for a `nil` error, so that a value returned *together*
  with an error stays visible.
* The collaborators that are not part of this file (`params.GenesisFor`,
  `multiaddr.NewMultiaddr`, `peer.AddrInfoFromP2pAddr`) are parameters of the
  resolvers; every theorem holds for each possible behaviour of them.
* `log.Infof` only writes to the process log and returns nothing; it is not
  part of the returned values and is left out.
-/

namespace services

/-- A Go `string`: its sequence of bytes. -/
abbrev GoString := List Nat

/-- The bytes of an ASCII literal, to write concrete inputs readably. -/
def ascii (s : String) : GoString := s.toList.map Char.toNat

/-- Values of Go's `error` interface that can reach the resolvers:
the two error values of `encoding/hex`, and the errors made by the
collaborating packages (`params`, `multiaddr`, `peer`), told apart by a tag. -/
inductive GoError where
  | InvalidByteError (b : Nat)
  | ErrLength
  | collaborator (tag : Nat)
  deriving DecidableEq

/-- Go type `multiaddr.Multiaddr`: a decoded multiaddr, identified by its binary form. -/
structure Multiaddr where
  bytes : List Nat
  deriving DecidableEq

/-- Go type `peer.AddrInfo`: a peer id with the addresses the peer is reachable at. -/
structure AddrInfo where
  ID : GoString
  Addrs : List Multiaddr
  deriving DecidableEq

/-- Zero value of `peer.AddrInfo`, which is what `make` fills a fresh slice with. -/
def AddrInfo.zero : AddrInfo := ⟨[], []⟩

/-- Go type `params.Network` (`type Network string`). -/
abbrev Network := GoString

/-- Go type `params.Bootstrappers` (`[]peer.AddrInfo`). -/
abbrev Bootstrappers := List AddrInfo

/-- The struct `Config` of `node/services/config.go`, lines 17-33.  `PeersLimit` is a
`uint`; the two intervals are `time.Duration`, a count of nanoseconds. -/
structure Config where
  TrustedHash : GoString
  TrustedPeers : List GoString
  PeersLimit : Nat
  DiscoveryInterval : Int
  AdvertiseInterval : Int
  deriving DecidableEq

/-- The constant `time.Second`, in nanoseconds. -/
def time.Second : Int := 1000000000

/-- The function `DefaultConfig`, lines 35-43. -/
def DefaultConfig : Config :=
  { TrustedHash := []
    TrustedPeers := []
    PeersLimit := 3
    DiscoveryInterval := time.Second * 30
    AdvertiseInterval := time.Second * 30 }

/-! ## `Config.trustedPeers` -/

/-- The `for i, tpeer := range cfg.TrustedPeers` loop of `trustedPeers`
(lines 52-62), started at index `i` with the slice `infos` built so far.
Each of the two `if err != nil` exits returns `nil, err`; falling out of the
loop reaches the bare `return` of line 64, which returns the named results
`infos` and the outer `err`, still `nil` (the loop's `err` is a new variable
declared by `:=`). -/
def trustedPeersLoop (NewMultiaddr : GoString → Except GoError Multiaddr)
    (AddrInfoFromP2pAddr : Multiaddr → Except GoError AddrInfo) :
    List GoString → Nat → List AddrInfo → List AddrInfo × Option GoError
  | [], _, infos => (infos, none)
  | tpeer :: rest, i, infos =>
    match NewMultiaddr tpeer with
    | .error err => ([], some err)
    | .ok ma =>
      match AddrInfoFromP2pAddr ma with
      | .error err => ([], some err)
      | .ok p =>
        trustedPeersLoop NewMultiaddr AddrInfoFromP2pAddr rest (i + 1) (infos.set i p)

/-- The method `Config.trustedPeers`, lines 45-65.  `NewMultiaddr` is
`multiaddr.NewMultiaddr` and `AddrInfoFromP2pAddr` is `peer.AddrInfoFromP2pAddr`;
the source reads their value only once `err != nil` is excluded, so each
returns either an error or a value. -/
def Config.trustedPeers (NewMultiaddr : GoString → Except GoError Multiaddr)
    (AddrInfoFromP2pAddr : Multiaddr → Except GoError AddrInfo)
    (cfg : Config) (bpeers : Bootstrappers) : List AddrInfo × Option GoError :=
  if cfg.TrustedPeers.length = 0 then
    (bpeers, none)
  else
    trustedPeersLoop NewMultiaddr AddrInfoFromP2pAddr cfg.TrustedPeers 0
      (List.replicate cfg.TrustedPeers.length AddrInfo.zero)

/-- What one `TrustedPeers` entry parses to: the two calls of the loop body
(lines 53 and 57) in sequence.  Used to state the claims, not by the resolver. -/
def parseEntry (NewMultiaddr : GoString → Except GoError Multiaddr)
    (AddrInfoFromP2pAddr : Multiaddr → Except GoError AddrInfo)
    (tpeer : GoString) : Except GoError AddrInfo :=
  match NewMultiaddr tpeer with
  | .error err => .error err
  | .ok ma => AddrInfoFromP2pAddr ma

/-- An entry fails to parse: as a multiaddr, or as a p2p address with a peer id. -/
def entryFails (NewMultiaddr : GoString → Except GoError Multiaddr)
    (AddrInfoFromP2pAddr : Multiaddr → Except GoError AddrInfo)
    (tpeer : GoString) : Prop :=
  (∃ err, NewMultiaddr tpeer = .error err) ∨
  (∃ ma err, NewMultiaddr tpeer = .ok ma ∧ AddrInfoFromP2pAddr ma = .error err)

/-! ## `encoding/hex` -/

namespace hex

/-- The function `fromHexChar` of `encoding/hex`: the value of one hexadecimal digit,
`none` standing for the `false` of the Go pair. -/
def fromHexChar (c : Nat) : Option Nat :=
  if 48 ≤ c ∧ c ≤ 57 then some (c - 48)
  else if 97 ≤ c ∧ c ≤ 102 then some (c - 97 + 10)
  else if 65 ≤ c ∧ c ≤ 70 then some (c - 65 + 10)
  else none

/-- The function `hex.Decode` as `hex.DecodeString` uses it: the bytes written so far and
the error.  The Go loop reads `src[j-1]`, `src[j]` for `j = 1, 3, 5, ...` and
writes `dst[i]` with `i = (j-1)/2`; here the same pairs are consumed from the
front of the list.  On a bad digit it stops with `InvalidByteError` of that
byte, and a single byte left over gives `InvalidByteError` when it is no hex
digit and `ErrLength` otherwise.  `DecodeString` decodes in place (`dst` is
`src`), which is sound because index `i` is never read again once written. -/
def Decode : List Nat → List Nat × Option GoError
  | [] => ([], none)
  | [p] =>
    match fromHexChar p with
    | none => ([], some (GoError.InvalidByteError p))
    | some _ => ([], some GoError.ErrLength)
  | p :: q :: rest =>
    match fromHexChar p with
    | none => ([], some (GoError.InvalidByteError p))
    | some a =>
      match fromHexChar q with
      | none => ([], some (GoError.InvalidByteError q))
      | some b =>
        let r := Decode rest
        ((((a <<< 4) ||| b) % 256) :: r.1, r.2)

/-- The function `hex.DecodeString`: `n, err := Decode(src, src); return src[:n], err`. -/
def DecodeString (s : GoString) : List Nat × Option GoError := Decode s

/-- The constant `hextable` of `encoding/hex`, `"0123456789abcdef"`. -/
def hextable : List Nat :=
  [48, 49, 50, 51, 52, 53, 54, 55, 56, 57, 97, 98, 99, 100, 101, 102]

/-- The function `hex.EncodeToString`: two digits of `hextable` for every byte. -/
def EncodeToString : List Nat → GoString
  | [] => []
  | v :: rest =>
    hextable.getD ((v % 256) >>> 4) 0 :: hextable.getD ((v % 256) &&& 15) 0 ::
      EncodeToString rest

end hex

/-! ## `Config.trustedHash` -/

/-- The method `Config.trustedHash`, lines 67-76.  `GenesisFor` is `params.GenesisFor`,
returning the genesis text of a network together with an error. -/
def Config.trustedHash (GenesisFor : Network → GoString × Option GoError)
    (cfg : Config) (net : Network) : List Nat × Option GoError :=
  if cfg.TrustedHash = [] then
    match GenesisFor net with
    | (_, some err) => ([], some err)
    | (gen, none) => hex.DecodeString gen
  else
    hex.DecodeString cfg.TrustedHash

/-! ## Vocabulary of the claims on hexadecimal text

These definitions follow the words of the specification, not the source; the
theorems below compare `hex.DecodeString` with them. -/

/-- A byte is a character of `[0-9a-fA-F]`. -/
def isHexDigit (c : Nat) : Prop :=
  (48 ≤ c ∧ c ≤ 57) ∨ (97 ≤ c ∧ c ≤ 102) ∨ (65 ≤ c ∧ c ≤ 70)

instance : DecidablePred isHexDigit := fun c => by
  unfold isHexDigit
  infer_instance

/-- Value of a hexadecimal digit: `0`-`9` are 0-9, `A`-`F` and `a`-`f` are 10-15. -/
def hexDigitValue (c : Nat) : Nat :=
  if c ≤ 57 then c - 48 else if c ≤ 70 then c - 55 else c - 87

/-- Hexadecimal decoding as the specification means it: every two digits
`hi lo` stand for the byte `16 * hi + lo`. -/
def specHexDecode : List Nat → List Nat
  | hi :: lo :: rest => (16 * hexDigitValue hi + hexDigitValue lo) :: specHexDecode rest
  | _ => []

/-- The text is malformed in the sense of `InvalidHexEncoding`: it contains a
character outside `[0-9a-fA-F]`, or it has odd length. -/
def malformedHex (t : GoString) : Prop :=
  (∃ c ∈ t, ¬ isHexDigit c) ∨ t.length % 2 = 1

instance : DecidablePred malformedHex := fun t => by
  unfold malformedHex
  infer_instance

/-- The error is of the kind `InvalidHexEncoding`: one of the two error values
of `encoding/hex`. -/
def isInvalidHexEncoding : Option GoError → Bool
  | some (GoError.InvalidByteError _) => true
  | some GoError.ErrLength => true
  | _ => false

/-! ## Sample collaborators

Concrete stand-ins for the three collaborators, to evaluate the resolvers at
concrete inputs.  No general theorem depends on them. -/

/-- Sample stand-in for `multiaddr.NewMultiaddr`, used only to instantiate the
theorems at concrete inputs: a text is accepted when it starts with `/`. -/
def sampleNewMultiaddr (s : GoString) : Except GoError Multiaddr :=
  match s with
  | 47 :: _ => .ok ⟨s⟩
  | _ => .error (GoError.collaborator 1)

/-- Sample stand-in for `peer.AddrInfoFromP2pAddr`, used only to instantiate
the theorems at concrete inputs: the address needs at least two bytes; the
last one is taken as the peer id, what precedes it as the one address. -/
def sampleAddrInfoFromP2pAddr (m : Multiaddr) : Except GoError AddrInfo :=
  match m.bytes.reverse with
  | id :: _ :: _ => .ok ⟨[id], [⟨m.bytes.dropLast⟩]⟩
  | _ => .error (GoError.collaborator 2)

/-- Sample stand-in for `params.GenesisFor`, used only to instantiate the
theorems at concrete inputs: the one registered network is `testnet`, with
genesis text `ab12`. -/
def sampleGenesisFor (net : Network) : GoString × Option GoError :=
  if net = ascii "testnet" then (ascii "ab12", none)
  else ([], some (GoError.collaborator 3))

/-- Sample stand-in for `peer.AddrInfoFromP2pAddr` that follows the library's
`SplitAddr` on the text of the address: the last component has to be
`/p2p/<id>` with a non-empty id, else the call fails; what stands before that
component is the transport address, and the address set is left nil when
there is nothing before it. -/
def splitAddrInfoFromP2pAddr (m : Multiaddr) : Except GoError AddrInfo :=
  let id := ((m.bytes.reverse).takeWhile (fun c => c ≠ 47)).reverse
  match (m.bytes.reverse).dropWhile (fun c => c ≠ 47) with
  | 47 :: 112 :: 50 :: 112 :: 47 :: transport =>
    if id = [] then .error (GoError.collaborator 2)
    else .ok ⟨id, if transport = [] then [] else [⟨transport.reverse⟩]⟩
  | _ => .error (GoError.collaborator 2)

/-! ## The receiver as state

Both resolvers are methods on `cfg *Config`, so they could assign to the
struct the receiver points to.  Here the struct is carried as an explicit
state `σ`, read where the source reads a field of `cfg` and handed on by every
statement; the functions return the state reached together with the results.
The collaborators receive a `string`, a `Multiaddr` or a `Network` by value and
never the receiver, and `hex.DecodeString` decodes inside its own copy
`[]byte(s)` of the text. -/

/-- The loop of `trustedPeers` (lines 52-62) in state-passing form. -/
def trustedPeersLoopSt (NewMultiaddr : GoString → Except GoError Multiaddr)
    (AddrInfoFromP2pAddr : Multiaddr → Except GoError AddrInfo) :
    List GoString → Nat → List AddrInfo → Config →
      (List AddrInfo × Option GoError) × Config
  | [], _, infos, σ => ((infos, none), σ)
  | tpeer :: rest, i, infos, σ =>
    match NewMultiaddr tpeer with
    | .error err => (([], some err), σ)
    | .ok ma =>
      match AddrInfoFromP2pAddr ma with
      | .error err => (([], some err), σ)
      | .ok p =>
        trustedPeersLoopSt NewMultiaddr AddrInfoFromP2pAddr rest (i + 1) (infos.set i p) σ

/-- The method `Config.trustedPeers` (lines 45-65) in state-passing form. -/
def Config.trustedPeersSt (NewMultiaddr : GoString → Except GoError Multiaddr)
    (AddrInfoFromP2pAddr : Multiaddr → Except GoError AddrInfo)
    (bpeers : Bootstrappers) (σ : Config) : (List AddrInfo × Option GoError) × Config :=
  if σ.TrustedPeers.length = 0 then
    ((bpeers, none), σ)
  else
    trustedPeersLoopSt NewMultiaddr AddrInfoFromP2pAddr σ.TrustedPeers 0
      (List.replicate σ.TrustedPeers.length AddrInfo.zero) σ

/-- The method `Config.trustedHash` (lines 67-76) in state-passing form. -/
def Config.trustedHashSt (GenesisFor : Network → GoString × Option GoError)
    (net : Network) (σ : Config) : (List Nat × Option GoError) × Config :=
  if σ.TrustedHash = [] then
    match GenesisFor net with
    | (_, some err) => (([], some err), σ)
    | (gen, none) => (hex.DecodeString gen, σ)
  else
    (hex.DecodeString σ.TrustedHash, σ)

/-! ## Vocabulary of the claims on error values and letter case -/

/-- The error value that stands for a malformed text: `InvalidByteError` of
the first byte outside `[0-9a-fA-F]` when there is one, `ErrLength` otherwise. -/
def hexErrorOf (t : GoString) : GoError :=
  match t.find? (fun c => decide (¬ isHexDigit c)) with
  | some b => GoError.InvalidByteError b
  | none => GoError.ErrLength

/-- Two bytes are the same, or the same letter of `a`-`f` in different case. -/
def sameUpToHexCase (a b : Nat) : Prop :=
  a = b ∨ (97 ≤ a ∧ a ≤ 102 ∧ b + 32 = a) ∨ (97 ≤ b ∧ b ≤ 102 ∧ a + 32 = b)

instance : ∀ a b, Decidable (sameUpToHexCase a b) := fun a b => by
  unfold sameUpToHexCase
  infer_instance

/-! ## Theorems -/

/-- Loop invariant of `trustedPeers`: when the entries still to visit all
parse, the loop fills the zero-valued tail of `infos` with their parses. -/
theorem trustedPeersLoop_ok (nm : GoString → Except GoError Multiaddr)
    (ai : Multiaddr → Except GoError AddrInfo) :
    ∀ (l : List GoString) (ps done : List AddrInfo),
      List.Forall₂ (fun s p => parseEntry nm ai s = .ok p) l ps →
      trustedPeersLoop nm ai l done.length
        (done ++ List.replicate l.length AddrInfo.zero) = (done ++ ps, none) := by
  intro l
  induction l with
  | nil =>
    intro ps done h
    cases h
    simp [trustedPeersLoop]
  | cons s rest ih =>
    intro ps done h
    cases h with
    | cons hs hrest =>
      rename_i p ps1
      unfold parseEntry at hs
      unfold trustedPeersLoop
      cases hnm : nm s with
      | error e => simp [hnm] at hs
      | ok ma =>
        simp only [hnm] at hs
        simp only [hs]
        have hset : (done ++ List.replicate (s :: rest).length AddrInfo.zero).set done.length p
            = (done ++ [p]) ++ List.replicate rest.length AddrInfo.zero := by
          simp [List.replicate_succ, List.set_append]
        rw [hset]
        have := ih ps1 (done ++ [p]) hrest
        simpa using this

/-- The loop of `trustedPeers` exits with `nil` and an error as soon as an
entry still to visit fails to parse, whatever index and slice it runs at. -/
theorem trustedPeersLoop_fails (nm : GoString → Except GoError Multiaddr)
    (ai : Multiaddr → Except GoError AddrInfo) :
    ∀ (l : List GoString) (i : Nat) (infos : List AddrInfo),
      (∃ s ∈ l, entryFails nm ai s) →
      ∃ err, trustedPeersLoop nm ai l i infos = ([], some err) := by
  intro l
  induction l with
  | nil => intro i infos h; simp at h
  | cons s rest ih =>
    intro i infos h
    cases hnm : nm s with
    | error e => exact ⟨e, by simp only [trustedPeersLoop, hnm]⟩
    | ok ma =>
      cases hai : ai ma with
      | error e => exact ⟨e, by simp only [trustedPeersLoop, hnm, hai]⟩
      | ok p =>
        simp only [trustedPeersLoop, hnm, hai]
        apply ih
        obtain ⟨t, ht, hf⟩ := h
        rcases List.mem_cons.mp ht with rfl | ht
        · exfalso
          rcases hf with ⟨e, he⟩ | ⟨m, e, hm, he⟩
          · simp [hnm] at he
          · rw [hnm] at hm
            cases hm
            simp [hai] at he
        · exact ⟨t, ht, hf⟩

/-- Entries that all parse are related, position by position, to their parses. -/
theorem forall₂_parse_of_all_ok (nm : GoString → Except GoError Multiaddr)
    (ai : Multiaddr → Except GoError AddrInfo) :
    ∀ (l : List GoString), (∀ s ∈ l, ∃ p, parseEntry nm ai s = .ok p) →
      ∃ ps, List.Forall₂ (fun s p => parseEntry nm ai s = .ok p) l ps := by
  intro l
  induction l with
  | nil => intro _; exact ⟨[], List.Forall₂.nil⟩
  | cons s rest ih =>
    intro h
    obtain ⟨p, hp⟩ := h s (List.mem_cons_self _ _)
    obtain ⟨ps, hps⟩ := ih (fun t ht => h t (List.mem_cons_of_mem _ ht))
    exact ⟨p :: ps, List.Forall₂.cons hp hps⟩

/-! ### `encoding/hex` against the vocabulary of the claims -/

/-- Induction over a text two bytes at a time, the way `hex.Decode` reads it. -/
theorem pairs_induction {P : List Nat → Prop} (h0 : P []) (h1 : ∀ p, P [p])
    (h2 : ∀ p q rest, P rest → P (p :: q :: rest)) : ∀ t, P t
  | [] => h0
  | [p] => h1 p
  | p :: q :: rest => h2 p q rest (pairs_induction h0 h1 h2 rest)

theorem fromHexChar_eq_none_iff (c : Nat) : hex.fromHexChar c = none ↔ ¬ isHexDigit c := by
  unfold hex.fromHexChar isHexDigit
  split_ifs <;> simp <;> omega

theorem fromHexChar_of_isHexDigit (c : Nat) (h : isHexDigit c) :
    hex.fromHexChar c = some (hexDigitValue c) ∧ hexDigitValue c < 16 := by
  unfold isHexDigit at h
  unfold hex.fromHexChar hexDigitValue
  split_ifs <;> simp <;> omega

theorem fromHexChar_lt (c a : Nat) (h : hex.fromHexChar c = some a) : a < 16 := by
  unfold hex.fromHexChar at h
  split_ifs at h <;> simp at h <;> omega

theorem byte_of_nibbles : ∀ a < 16, ∀ b < 16, ((a <<< 4) ||| b) % 256 = 16 * a + b := by
  decide

/-- The error of `hex.Decode` is nil exactly on well-formed text. -/
theorem Decode_err_none_iff : ∀ t, (hex.Decode t).2 = none ↔ ¬ malformedHex t := by
  apply pairs_induction
  · simp [hex.Decode, malformedHex]
  · intro p
    cases hp : hex.fromHexChar p <;> simp [hex.Decode, malformedHex, hp]
  · intro p q rest ih
    cases hp : hex.fromHexChar p with
    | none =>
      have := (fromHexChar_eq_none_iff p).mp hp
      simp only [hex.Decode, hp, malformedHex]
      simp only [reduceCtorEq, false_iff, not_not]
      exact Or.inl ⟨p, List.mem_cons_self _ _, this⟩
    | some a =>
      have hpd : isHexDigit p := by
        by_contra hc
        rw [(fromHexChar_eq_none_iff p).mpr hc] at hp
        cases hp
      cases hq : hex.fromHexChar q with
      | none =>
        have := (fromHexChar_eq_none_iff q).mp hq
        simp only [hex.Decode, hp, hq, malformedHex]
        simp only [reduceCtorEq, false_iff, not_not]
        exact Or.inl ⟨q, by simp, this⟩
      | some b =>
        have hqd : isHexDigit q := by
          by_contra hc
          rw [(fromHexChar_eq_none_iff q).mpr hc] at hq
          cases hq
        simp only [hex.Decode, hp, hq]
        rw [ih]
        unfold malformedHex
        simp only [List.mem_cons, List.length_cons]
        constructor
        · rintro h (⟨c, hc, hcd⟩ | hodd)
          · rcases hc with rfl | rfl | hc
            · exact hcd hpd
            · exact hcd hqd
            · exact h (Or.inl ⟨c, hc, hcd⟩)
          · exact h (Or.inr (by omega))
        · rintro h (⟨c, hc, hcd⟩ | hodd)
          · exact h (Or.inl ⟨c, Or.inr (Or.inr hc), hcd⟩)
          · exact h (Or.inr (by omega))

/-- Every error of `hex.Decode` is of the kind `InvalidHexEncoding`. -/
theorem Decode_err_kind : ∀ t, (hex.Decode t).2 = none ∨
    isInvalidHexEncoding (hex.Decode t).2 = true := by
  apply pairs_induction
  · simp [hex.Decode]
  · intro p
    cases hp : hex.fromHexChar p <;> simp [hex.Decode, hp, isInvalidHexEncoding]
  · intro p q rest ih
    cases hp : hex.fromHexChar p with
    | none => simp [hex.Decode, hp, isInvalidHexEncoding]
    | some a =>
      cases hq : hex.fromHexChar q with
      | none => simp [hex.Decode, hp, hq, isInvalidHexEncoding]
      | some b => simpa [hex.Decode, hp, hq] using ih

/-- On well-formed text `hex.Decode` is the specification's decoding. -/
theorem Decode_eq_specHexDecode : ∀ t, ¬ malformedHex t →
    hex.Decode t = (specHexDecode t, none) := by
  apply pairs_induction
  · intro _; simp [hex.Decode, specHexDecode]
  · intro p h
    exact absurd (Or.inr (by simp)) h
  · intro p q rest ih h
    have hp : isHexDigit p := by
      by_contra hc
      exact h (Or.inl ⟨p, by simp, hc⟩)
    have hq : isHexDigit q := by
      by_contra hc
      exact h (Or.inl ⟨q, by simp, hc⟩)
    have hrest : ¬ malformedHex rest := by
      rintro (⟨c, hc, hcd⟩ | hodd)
      · exact h (Or.inl ⟨c, by simp [hc], hcd⟩)
      · exact h (Or.inr (by simp only [List.length_cons]; omega))
    obtain ⟨hp1, hp2⟩ := fromHexChar_of_isHexDigit p hp
    obtain ⟨hq1, hq2⟩ := fromHexChar_of_isHexDigit q hq
    simp only [hex.Decode, hp1, hq1, ih hrest, specHexDecode]
    rw [byte_of_nibbles _ hp2 _ hq2]

/-- Every byte written by `hex.Decode` is a byte. -/
theorem Decode_bytes_lt : ∀ t, ∀ b ∈ (hex.Decode t).1, b < 256 := by
  apply pairs_induction
  · simp [hex.Decode]
  · intro p
    cases hp : hex.fromHexChar p <;> simp [hex.Decode, hp]
  · intro p q rest ih
    cases hp : hex.fromHexChar p with
    | none => simp [hex.Decode, hp]
    | some a =>
      cases hq : hex.fromHexChar q with
      | none => simp [hex.Decode, hp, hq]
      | some b =>
        simp only [hex.Decode, hp, hq, List.mem_cons]
        rintro c (rfl | hc)
        · exact Nat.mod_lt _ (by decide)
        · exact ih c hc

/-- A non-empty text that `hex.Decode` accepts decodes to at least one byte. -/
theorem Decode_ne_nil (t : GoString) (hne : t ≠ []) (hok : (hex.Decode t).2 = none) :
    (hex.Decode t).1 ≠ [] := by
  match t, hne, hok with
  | [p], _, hok =>
    cases hp : hex.fromHexChar p <;> simp [hex.Decode, hp] at hok
  | p :: q :: rest, _, hok =>
    cases hp : hex.fromHexChar p with
    | none => simp [hex.Decode, hp] at hok
    | some a =>
      cases hq : hex.fromHexChar q with
      | none => simp [hex.Decode, hp, hq] at hok
      | some b => simp [hex.Decode, hp, hq]

set_option maxRecDepth 100000 in
/-- One byte through `hextable` and back through `fromHexChar`. -/
theorem nibbles_roundtrip : ∀ v < 256,
    hex.fromHexChar (hex.hextable.getD (v >>> 4) 0) = some (v >>> 4) ∧
    hex.fromHexChar (hex.hextable.getD (v &&& 15) 0) = some (v &&& 15) ∧
    (((v >>> 4) <<< 4) ||| (v &&& 15)) % 256 = v := by
  decide

/-- Decoding the hexadecimal encoding of bytes gives the bytes back. -/
theorem Decode_EncodeToString : ∀ h : List Nat, (∀ b ∈ h, b < 256) →
    hex.Decode (hex.EncodeToString h) = (h, none) := by
  intro h
  induction h with
  | nil => intro _; simp [hex.EncodeToString, hex.Decode]
  | cons v rest ih =>
    intro hb
    have hv : v < 256 := hb v (List.mem_cons_self _ _)
    obtain ⟨h1, h2, h3⟩ := nibbles_roundtrip v hv
    have hrest := ih (fun b hbm => hb b (List.mem_cons_of_mem _ hbm))
    simp only [hex.EncodeToString, Nat.mod_eq_of_lt hv, hex.Decode, h1, h2, h3, hrest]

/-! ### Claims on `trustedPeers` -/

/-- C1: for every Config whose `TrustedPeers` is empty and every bootstrapper
list `bpeers` (the empty one included), `trustedPeers` returns exactly `bpeers`
with a nil error. -/
theorem trustedPeers_empty_returns_bootstrappers
    (nm : GoString → Except GoError Multiaddr) (ai : Multiaddr → Except GoError AddrInfo)
    (cfg : Config) (bpeers : Bootstrappers) (h : cfg.TrustedPeers.length = 0) :
    cfg.trustedPeers nm ai bpeers = (bpeers, none) := by
  simp [Config.trustedPeers, h]

/-- Instance of C1: the default Config and a one-element bootstrapper list. -/
theorem trustedPeers_empty_returns_bootstrappers_witness :
    DefaultConfig.TrustedPeers.length = 0 ∧
    DefaultConfig.trustedPeers sampleNewMultiaddr sampleAddrInfoFromP2pAddr
        [⟨[81], [⟨ascii "/ip"⟩]⟩] = ([⟨[81], [⟨ascii "/ip"⟩]⟩], none) :=
  ⟨by decide,
   trustedPeers_empty_returns_bootstrappers sampleNewMultiaddr sampleAddrInfoFromP2pAddr
     DefaultConfig [⟨[81], [⟨ascii "/ip"⟩]⟩] (by decide)⟩

/-- C2: when the entry at some position `k` of `TrustedPeers` fails to parse
(as a multiaddr, or as a p2p address with a peer id), `trustedPeers` returns a
non-nil error and the nil peer sequence, whatever stands before or after `k`. -/
theorem trustedPeers_malformed_entry_fails
    (nm : GoString → Except GoError Multiaddr) (ai : Multiaddr → Except GoError AddrInfo)
    (cfg : Config) (bpeers : Bootstrappers) (k : Nat) (hk : k < cfg.TrustedPeers.length)
    (hbad : entryFails nm ai (cfg.TrustedPeers.get ⟨k, hk⟩)) :
    ∃ err, cfg.trustedPeers nm ai bpeers = ([], some err) := by
  have hlen : cfg.TrustedPeers.length ≠ 0 := by omega
  simp only [Config.trustedPeers, hlen, if_false]
  exact trustedPeersLoop_fails nm ai _ _ _ ⟨_, List.get_mem _ _ _, hbad⟩

/-- Instance of C2: a malformed entry between two valid ones, with a
non-empty bootstrapper list that is not returned. -/
theorem trustedPeers_malformed_entry_fails_witness :
    ∃ err, Config.trustedPeers sampleNewMultiaddr sampleAddrInfoFromP2pAddr
      { DefaultConfig with TrustedPeers := [ascii "/ipA", ascii "bad", ascii "/ipB"] }
      [⟨[81], []⟩] = ([], some err) :=
  trustedPeers_malformed_entry_fails sampleNewMultiaddr sampleAddrInfoFromP2pAddr
    { DefaultConfig with TrustedPeers := [ascii "/ipA", ascii "bad", ascii "/ipB"] }
    [⟨[81], []⟩] 1 (by decide) (Or.inl ⟨GoError.collaborator 1, rfl⟩)

/-- C3: when `TrustedPeers` is non-empty and every entry parses,
`trustedPeers` succeeds, the output is as long as `TrustedPeers`, and the
output element at each index `i` is the peer parsed from the entry at `i`. -/
theorem trustedPeers_all_valid_pointwise
    (nm : GoString → Except GoError Multiaddr) (ai : Multiaddr → Except GoError AddrInfo)
    (cfg : Config) (bpeers : Bootstrappers) (hne : cfg.TrustedPeers ≠ [])
    (hall : ∀ s ∈ cfg.TrustedPeers, ∃ p, parseEntry nm ai s = .ok p) :
    (cfg.trustedPeers nm ai bpeers).2 = none ∧
    (cfg.trustedPeers nm ai bpeers).1.length = cfg.TrustedPeers.length ∧
    ∀ (i : Nat) (hi : i < cfg.TrustedPeers.length),
      ∃ p, parseEntry nm ai (cfg.TrustedPeers.get ⟨i, hi⟩) = .ok p ∧
        (cfg.trustedPeers nm ai bpeers).1[i]? = some p := by
  obtain ⟨ps, hps⟩ := forall₂_parse_of_all_ok nm ai cfg.TrustedPeers hall
  have hlen : cfg.TrustedPeers.length ≠ 0 := by
    intro h0
    exact hne (List.length_eq_zero.mp h0)
  have hrun : cfg.trustedPeers nm ai bpeers = (ps, none) := by
    have := trustedPeersLoop_ok nm ai cfg.TrustedPeers ps [] hps
    simpa [Config.trustedPeers, hlen] using this
  have hl : cfg.TrustedPeers.length = ps.length := hps.length_eq
  rw [hrun]
  refine ⟨rfl, hl.symm, ?_⟩
  intro i hi
  have hi2 : i < ps.length := hl ▸ hi
  refine ⟨ps.get ⟨i, hi2⟩, hps.get hi hi2, ?_⟩
  simp [List.getElem?_eq_getElem hi2]

/-- Instance of C3: two valid entries. -/
theorem trustedPeers_all_valid_pointwise_witness :
    (Config.trustedPeers sampleNewMultiaddr sampleAddrInfoFromP2pAddr
      { DefaultConfig with TrustedPeers := [ascii "/ipA", ascii "/ipB"] } [⟨[81], []⟩]).1
      = [⟨[65], [⟨ascii "/ip"⟩]⟩, ⟨[66], [⟨ascii "/ip"⟩]⟩] ∧
    (Config.trustedPeers sampleNewMultiaddr sampleAddrInfoFromP2pAddr
      { DefaultConfig with TrustedPeers := [ascii "/ipA", ascii "/ipB"] } [⟨[81], []⟩]).2
      = none :=
  ⟨by decide,
   (trustedPeers_all_valid_pointwise sampleNewMultiaddr sampleAddrInfoFromP2pAddr
      { DefaultConfig with TrustedPeers := [ascii "/ipA", ascii "/ipB"] } [⟨[81], []⟩]
      (by decide)
      (by
        intro s hs
        simp only [List.mem_cons, List.mem_singleton, List.not_mem_nil, or_false] at hs
        rcases hs with rfl | rfl
        · exact ⟨⟨[65], [⟨ascii "/ip"⟩]⟩, rfl⟩
        · exact ⟨⟨[66], [⟨ascii "/ip"⟩]⟩, rfl⟩)).1⟩

/-- C4: with a non-empty `TrustedPeers`, any two bootstrapper lists give the
same result and the same error: the defaults are ignored and never merged in. -/
theorem trustedPeers_ignores_bootstrappers
    (nm : GoString → Except GoError Multiaddr) (ai : Multiaddr → Except GoError AddrInfo)
    (cfg : Config) (b1 b2 : Bootstrappers) (hne : cfg.TrustedPeers ≠ []) :
    cfg.trustedPeers nm ai b1 = cfg.trustedPeers nm ai b2 := by
  have hlen : cfg.TrustedPeers.length ≠ 0 := by
    intro h0
    exact hne (List.length_eq_zero.mp h0)
  simp only [Config.trustedPeers, hlen, if_false]

/-- Instance of C4: a malformed single entry, resolved against an empty and a
non-empty bootstrapper list. -/
theorem trustedPeers_ignores_bootstrappers_witness :
    Config.trustedPeers sampleNewMultiaddr sampleAddrInfoFromP2pAddr
      { DefaultConfig with TrustedPeers := [ascii "not-a-valid-address"] } []
    = Config.trustedPeers sampleNewMultiaddr sampleAddrInfoFromP2pAddr
      { DefaultConfig with TrustedPeers := [ascii "not-a-valid-address"] } [⟨[81], []⟩] :=
  trustedPeers_ignores_bootstrappers sampleNewMultiaddr sampleAddrInfoFromP2pAddr
    { DefaultConfig with TrustedPeers := [ascii "not-a-valid-address"] } [] [⟨[81], []⟩]
    (by decide)

/-! ### Claims on `trustedHash` -/

/-- C5: with an empty `TrustedHash` and a network whose genesis lookup
succeeds with text `g`, `trustedHash` returns exactly the hexadecimal decoding
of `g`: what `hex.DecodeString g` returns, which for a well-formed `g` is the
byte `16 * hi + lo` for every two digits, with a nil error. -/
theorem trustedHash_empty_decodes_registered_genesis
    (GenesisFor : Network → GoString × Option GoError) (cfg : Config) (net : Network)
    (g : GoString) (hempty : cfg.TrustedHash = []) (hreg : GenesisFor net = (g, none)) :
    cfg.trustedHash GenesisFor net = hex.DecodeString g ∧
    (¬ malformedHex g → cfg.trustedHash GenesisFor net = (specHexDecode g, none)) := by
  have h1 : cfg.trustedHash GenesisFor net = hex.DecodeString g := by
    simp [Config.trustedHash, hempty, hreg]
  refine ⟨h1, fun hg => ?_⟩
  rw [h1]
  exact Decode_eq_specHexDecode g hg

/-- Instance of C5: the registered genesis text `ab12` resolves to `[0xab, 0x12]`. -/
theorem trustedHash_empty_decodes_registered_genesis_witness :
    DefaultConfig.TrustedHash = [] ∧
    sampleGenesisFor (ascii "testnet") = (ascii "ab12", none) ∧
    DefaultConfig.trustedHash sampleGenesisFor (ascii "testnet") = ([0xab, 0x12], none) :=
  ⟨rfl, by decide,
   ((trustedHash_empty_decodes_registered_genesis sampleGenesisFor DefaultConfig
      (ascii "testnet") (ascii "ab12") rfl (by decide)).2 (by decide)).trans (by decide)⟩

/-- C6: with an empty `TrustedHash` and a network whose genesis lookup fails,
`trustedHash` returns a nil hash with the error of the lookup; the text the
lookup returned, whatever it is, is not decoded. -/
theorem trustedHash_empty_propagates_lookup_error
    (GenesisFor : Network → GoString × Option GoError) (cfg : Config) (net : Network)
    (text : GoString) (err : GoError) (hempty : cfg.TrustedHash = [])
    (hunreg : GenesisFor net = (text, some err)) :
    cfg.trustedHash GenesisFor net = ([], some err) := by
  simp [Config.trustedHash, hempty, hunreg]

/-- Instance of C6: a network without a registered genesis. -/
theorem trustedHash_empty_propagates_lookup_error_witness :
    DefaultConfig.TrustedHash = [] ∧
    sampleGenesisFor (ascii "nonet") = ([], some (GoError.collaborator 3)) ∧
    DefaultConfig.trustedHash sampleGenesisFor (ascii "nonet")
      = ([], some (GoError.collaborator 3)) :=
  ⟨rfl, by decide,
   trustedHash_empty_propagates_lookup_error sampleGenesisFor DefaultConfig
     (ascii "nonet") [] (GoError.collaborator 3) rfl (by decide)⟩

/-- C7: with a non-empty `TrustedHash`, `trustedHash` on any two networks,
registered or not, returns the hexadecimal decoding of `cfg.TrustedHash`: the
genesis lookup plays no part and cannot make the call fail. -/
theorem trustedHash_nonempty_ignores_network
    (GenesisFor : Network → GoString × Option GoError) (cfg : Config) (n1 n2 : Network)
    (hne : cfg.TrustedHash ≠ []) :
    cfg.trustedHash GenesisFor n1 = hex.DecodeString cfg.TrustedHash ∧
    cfg.trustedHash GenesisFor n2 = hex.DecodeString cfg.TrustedHash ∧
    (¬ malformedHex cfg.TrustedHash →
      cfg.trustedHash GenesisFor n1 = (specHexDecode cfg.TrustedHash, none) ∧
      cfg.trustedHash GenesisFor n2 = (specHexDecode cfg.TrustedHash, none)) := by
  have h : ∀ n, cfg.trustedHash GenesisFor n = hex.DecodeString cfg.TrustedHash := by
    intro n
    simp [Config.trustedHash, hne]
  refine ⟨h n1, h n2, fun hg => ?_⟩
  rw [h n1, h n2]
  exact ⟨Decode_eq_specHexDecode _ hg, Decode_eq_specHexDecode _ hg⟩

/-- Instance of C7: a registered and an unregistered network. -/
theorem trustedHash_nonempty_ignores_network_witness :
    Config.trustedHash sampleGenesisFor { DefaultConfig with TrustedHash := ascii "00ff" }
      (ascii "testnet") = ([0x00, 0xff], none) ∧
    Config.trustedHash sampleGenesisFor { DefaultConfig with TrustedHash := ascii "00ff" }
      (ascii "nonet") = ([0x00, 0xff], none) :=
  ⟨((trustedHash_nonempty_ignores_network sampleGenesisFor
      { DefaultConfig with TrustedHash := ascii "00ff" } (ascii "testnet") (ascii "nonet")
      (by decide)).2.2 (by decide)).1.trans (by decide),
   ((trustedHash_nonempty_ignores_network sampleGenesisFor
      { DefaultConfig with TrustedHash := ascii "00ff" } (ascii "testnet") (ascii "nonet")
      (by decide)).2.2 (by decide)).2.trans (by decide)⟩

/-- C8: for the text that `trustedHash` decodes (a non-empty `TrustedHash`, or
the genesis text of a registered network when `TrustedHash` is empty), the
call fails with `InvalidHexEncoding` if and only if the text contains a
character outside `[0-9a-fA-F]` or has odd length, and otherwise it succeeds:
well-formed text of any length is accepted. -/
theorem trustedHash_invalid_hex_iff_malformed
    (GenesisFor : Network → GoString × Option GoError) (cfg : Config) (net : Network)
    (text : GoString)
    (htext : (cfg.TrustedHash ≠ [] ∧ text = cfg.TrustedHash) ∨
      (cfg.TrustedHash = [] ∧ GenesisFor net = (text, none))) :
    (isInvalidHexEncoding (cfg.trustedHash GenesisFor net).2 = true ↔ malformedHex text) ∧
    ((cfg.trustedHash GenesisFor net).2 = none ↔ ¬ malformedHex text) := by
  have h : cfg.trustedHash GenesisFor net = hex.Decode text := by
    rcases htext with ⟨hne, rfl⟩ | ⟨hempty, hreg⟩
    · simp [Config.trustedHash, hne, hex.DecodeString]
    · simp [Config.trustedHash, hempty, hreg, hex.DecodeString]
  rw [h]
  have hnone := Decode_err_none_iff text
  refine ⟨⟨fun hbad => ?_, fun hm => ?_⟩, hnone⟩
  · by_contra hc
    rw [hnone.mpr hc] at hbad
    simp [isInvalidHexEncoding] at hbad
  · rcases Decode_err_kind text with h0 | h1
    · exact absurd hm (hnone.mp h0)
    · exact h1

/-- Instance of C8: `TrustedHash` `zz` is rejected with `InvalidHexEncoding`. -/
theorem trustedHash_invalid_hex_iff_malformed_witness :
    malformedHex (ascii "zz") ∧
    isInvalidHexEncoding (Config.trustedHash sampleGenesisFor
      { DefaultConfig with TrustedHash := ascii "zz" } (ascii "testnet")).2 = true :=
  ⟨by decide,
   (trustedHash_invalid_hex_iff_malformed sampleGenesisFor
      { DefaultConfig with TrustedHash := ascii "zz" } (ascii "testnet") (ascii "zz")
      (Or.inl ⟨by decide, rfl⟩)).1.mpr (by decide)⟩

/-- C9, the code at the failing input: for `TrustedHash` `abzz` the call
returns the error `InvalidByteError('z')` together with the byte `0xab` that
was decoded before the bad character, not a nil hash. -/
theorem trustedHash_abzz_returns_bytes_with_error
    (GenesisFor : Network → GoString × Option GoError) (net : Network) :
    Config.trustedHash GenesisFor { DefaultConfig with TrustedHash := ascii "abzz" } net
      = ([0xab], some (GoError.InvalidByteError 122)) := by
  unfold Config.trustedHash
  rw [if_neg (by decide)]
  decide

/-- C10: when a non-empty `TrustedHash` resolves to bytes `h`, then `h` is
non-empty, and every Config whose `TrustedHash` is the hexadecimal encoding of
`h` resolves to the same bytes `h`, on every network. -/
theorem trustedHash_reencode_roundtrip
    (GenesisFor : Network → GoString × Option GoError) (cfg : Config) (net : Network)
    (h : List Nat) (hne : cfg.TrustedHash ≠ [])
    (hok : cfg.trustedHash GenesisFor net = (h, none)) :
    h ≠ [] ∧
    ∀ (GenesisFor2 : Network → GoString × Option GoError) (cfg2 : Config) (net2 : Network),
      cfg2.TrustedHash = hex.EncodeToString h →
      cfg2.trustedHash GenesisFor2 net2 = (h, none) := by
  have hdec : hex.Decode cfg.TrustedHash = (h, none) := by
    simpa [Config.trustedHash, hne, hex.DecodeString] using hok
  have hnil : h ≠ [] := by
    have := Decode_ne_nil cfg.TrustedHash hne (by rw [hdec])
    rwa [hdec] at this
  have hbytes : ∀ b ∈ h, b < 256 := by
    have := Decode_bytes_lt cfg.TrustedHash
    rwa [hdec] at this
  refine ⟨hnil, fun G2 cfg2 net2 henc => ?_⟩
  have henc_ne : hex.EncodeToString h ≠ [] := by
    cases h with
    | nil => exact absurd rfl hnil
    | cons v rest => simp [hex.EncodeToString]
  simp only [Config.trustedHash, henc, henc_ne, if_false, hex.DecodeString]
  exact Decode_EncodeToString h hbytes

/-- Instance of C10: `AB12` resolves to `[0xab, 0x12]`, which re-encodes to
`ab12` and resolves to `[0xab, 0x12]` again. -/
theorem trustedHash_reencode_roundtrip_witness :
    hex.EncodeToString [0xab, 0x12] = ascii "ab12" ∧
    Config.trustedHash sampleGenesisFor { DefaultConfig with TrustedHash := ascii "ab12" }
      (ascii "nonet") = ([0xab, 0x12], none) :=
  ⟨by decide,
   (trustedHash_reencode_roundtrip sampleGenesisFor
      { DefaultConfig with TrustedHash := ascii "AB12" } (ascii "testnet") [0xab, 0x12]
      (by decide) (by decide)).2 sampleGenesisFor
      { DefaultConfig with TrustedHash := ascii "ab12" } (ascii "nonet") (by decide)⟩

/-! ### Further lemmas on the loop of `trustedPeers` -/

/-- An entry whose parse is an error fails to parse. -/
theorem entryFails_of_parseEntry_error (nm : GoString → Except GoError Multiaddr)
    (ai : Multiaddr → Except GoError AddrInfo) (s : GoString) (e : GoError)
    (h : parseEntry nm ai s = .error e) : entryFails nm ai s := by
  unfold parseEntry at h
  cases hnm : nm s with
  | error e1 => exact Or.inl ⟨e1, hnm⟩
  | ok ma =>
    simp only [hnm] at h
    exact Or.inr ⟨ma, e, hnm, h⟩

/-- The loop returns the error of the first entry that fails to parse, and
does so without reading the entries behind it. -/
theorem trustedPeersLoop_first_error (nm : GoString → Except GoError Multiaddr)
    (ai : Multiaddr → Except GoError AddrInfo) (bad : GoString) (post : List GoString)
    (e : GoError) (hbad : parseEntry nm ai bad = .error e) :
    ∀ (pre : List GoString) (i : Nat) (infos : List AddrInfo),
      (∀ s ∈ pre, ∃ p, parseEntry nm ai s = .ok p) →
      trustedPeersLoop nm ai (pre ++ bad :: post) i infos = ([], some e) := by
  intro pre
  induction pre with
  | nil =>
    intro i infos _
    unfold parseEntry at hbad
    cases hnm : nm bad with
    | error e1 =>
      simp only [hnm] at hbad
      cases hbad
      simp only [List.nil_append, trustedPeersLoop, hnm]
    | ok ma =>
      simp only [hnm] at hbad
      simp only [List.nil_append, trustedPeersLoop, hnm, hbad]
  | cons s rest ih =>
    intro i infos hpre
    obtain ⟨p, hp⟩ := hpre s (List.mem_cons_self _ _)
    unfold parseEntry at hp
    cases hnm : nm s with
    | error e1 => simp [hnm] at hp
    | ok ma =>
      simp only [hnm] at hp
      simp only [List.cons_append, trustedPeersLoop, hnm, hp]
      exact ih _ _ (fun t ht => hpre t (List.mem_cons_of_mem _ ht))

/-- A run of the loop that ends without error has parsed every entry and
returns the parses in order. -/
theorem trustedPeersLoop_success_inv (nm : GoString → Except GoError Multiaddr)
    (ai : Multiaddr → Except GoError AddrInfo) (l : List GoString)
    (done out : List AddrInfo)
    (h : trustedPeersLoop nm ai l done.length
      (done ++ List.replicate l.length AddrInfo.zero) = (out, none)) :
    ∃ ps, List.Forall₂ (fun s p => parseEntry nm ai s = .ok p) l ps ∧ out = done ++ ps := by
  by_cases hall : ∀ s ∈ l, ∃ p, parseEntry nm ai s = .ok p
  · obtain ⟨ps, hps⟩ := forall₂_parse_of_all_ok nm ai l hall
    refine ⟨ps, hps, ?_⟩
    rw [trustedPeersLoop_ok nm ai l ps done hps] at h
    exact (congrArg Prod.fst h).symm
  · exfalso
    push_neg at hall
    obtain ⟨s, hs, hno⟩ := hall
    have hf : entryFails nm ai s := by
      cases hp : parseEntry nm ai s with
      | error e => exact entryFails_of_parseEntry_error nm ai s e hp
      | ok p => exact absurd hp (hno p)
    obtain ⟨err, herr⟩ := trustedPeersLoop_fails nm ai l done.length
      (done ++ List.replicate l.length AddrInfo.zero) ⟨s, hs, hf⟩
    rw [herr] at h
    cases h

/-- The state-passing loop returns what the loop returns and the state it was given. -/
theorem trustedPeersLoopSt_eq (nm : GoString → Except GoError Multiaddr)
    (ai : Multiaddr → Except GoError AddrInfo) (σ : Config) :
    ∀ (l : List GoString) (i : Nat) (infos : List AddrInfo),
      trustedPeersLoopSt nm ai l i infos σ = (trustedPeersLoop nm ai l i infos, σ) := by
  intro l
  induction l with
  | nil => intro i infos; simp [trustedPeersLoopSt, trustedPeersLoop]
  | cons s rest ih =>
    intro i infos
    cases hnm : nm s with
    | error e => simp only [trustedPeersLoopSt, trustedPeersLoop, hnm]
    | ok ma =>
      cases hai : ai ma with
      | error e => simp only [trustedPeersLoopSt, trustedPeersLoop, hnm, hai]
      | ok p =>
        simp only [trustedPeersLoopSt, trustedPeersLoop, hnm, hai]
        exact ih _ _

/-! ### Further lemmas on `encoding/hex` -/

theorem hexErrorOf_cons (c : Nat) (t : GoString) :
    hexErrorOf (c :: t) = if isHexDigit c then hexErrorOf t else GoError.InvalidByteError c := by
  by_cases hc : isHexDigit c <;> simp [hexErrorOf, List.find?_cons, hc]

/-- The error of `hex.Decode` on a malformed text names the first byte that is
no hex digit, and is `ErrLength` when there is no such byte. -/
theorem Decode_err_eq_hexErrorOf : ∀ t, malformedHex t →
    (hex.Decode t).2 = some (hexErrorOf t) := by
  apply pairs_induction
  · intro h
    exact absurd h (by decide)
  · intro p _
    cases hp : hex.fromHexChar p with
    | none =>
      have hd := (fromHexChar_eq_none_iff p).mp hp
      simp [hex.Decode, hp, hexErrorOf_cons, hd]
    | some a =>
      have hd : isHexDigit p := by
        by_contra hc
        rw [(fromHexChar_eq_none_iff p).mpr hc] at hp
        cases hp
      simp [hex.Decode, hp, hexErrorOf_cons, hd, hexErrorOf]
  · intro p q rest ih h
    cases hp : hex.fromHexChar p with
    | none =>
      have hd := (fromHexChar_eq_none_iff p).mp hp
      simp [hex.Decode, hp, hexErrorOf_cons, hd]
    | some a =>
      have hpd : isHexDigit p := by
        by_contra hc
        rw [(fromHexChar_eq_none_iff p).mpr hc] at hp
        cases hp
      cases hq : hex.fromHexChar q with
      | none =>
        have hd := (fromHexChar_eq_none_iff q).mp hq
        simp [hex.Decode, hp, hq, hexErrorOf_cons, hd, hpd]
      | some b =>
        have hqd : isHexDigit q := by
          by_contra hc
          rw [(fromHexChar_eq_none_iff q).mpr hc] at hq
          cases hq
        have hrest : malformedHex rest := by
          rcases h with ⟨c, hc, hcd⟩ | hodd
          · simp only [List.mem_cons] at hc
            rcases hc with rfl | rfl | hc
            · exact absurd hpd hcd
            · exact absurd hqd hcd
            · exact Or.inl ⟨c, hc, hcd⟩
          · exact Or.inr (by simp only [List.length_cons] at hodd; omega)
        simp only [hex.Decode, hp, hq, hexErrorOf_cons, hpd, hqd, if_true]
        exact ih hrest

/-- A text that `hex.Decode` accepts decodes to half as many bytes. -/
theorem Decode_length : ∀ t, (hex.Decode t).2 = none →
    (hex.Decode t).1.length = t.length / 2 := by
  apply pairs_induction
  · intro _; simp [hex.Decode]
  · intro p h
    cases hp : hex.fromHexChar p <;> simp [hex.Decode, hp] at h
  · intro p q rest ih h
    cases hp : hex.fromHexChar p with
    | none => simp [hex.Decode, hp] at h
    | some a =>
      cases hq : hex.fromHexChar q with
      | none => simp [hex.Decode, hp, hq] at h
      | some b =>
        simp only [hex.Decode, hp, hq] at h ⊢
        simp only [List.length_cons, ih h]
        omega

/-- Letter case does not change the value of a digit, and a byte that is no
digit has no other case. -/
theorem fromHexChar_sameUpToHexCase (a b : Nat) (h : sameUpToHexCase a b) :
    hex.fromHexChar a = hex.fromHexChar b ∧ (hex.fromHexChar a = none → a = b) := by
  unfold sameUpToHexCase at h
  unfold hex.fromHexChar
  rcases h with rfl | ⟨h1, h2, h3⟩ | ⟨h1, h2, h3⟩
  · exact ⟨rfl, fun _ => rfl⟩
  · subst h3
    split_ifs <;> simp <;> omega
  · subst h3
    split_ifs <;> simp <;> omega

/-- Texts that differ only in the case of the letters `a`-`f` decode alike. -/
theorem Decode_sameUpToHexCase : ∀ t1 t2 : GoString,
    List.Forall₂ sameUpToHexCase t1 t2 → hex.Decode t1 = hex.Decode t2 := by
  apply pairs_induction
  · intro t2 h
    cases h
    rfl
  · intro p t2 h
    cases h with
    | cons hpq hrest =>
      cases hrest
      obtain ⟨h1, h2⟩ := fromHexChar_sameUpToHexCase _ _ hpq
      cases hp : hex.fromHexChar p with
      | none =>
        have := h2 hp
        subst this
        rfl
      | some a => simp only [hex.Decode, ← h1, hp]
  · intro p q rest ih t2 h
    cases h with
    | cons hpq hrest =>
      cases hrest with
      | cons hqr hrest2 =>
        obtain ⟨hp1, hp2⟩ := fromHexChar_sameUpToHexCase _ _ hpq
        obtain ⟨hq1, hq2⟩ := fromHexChar_sameUpToHexCase _ _ hqr
        cases hp : hex.fromHexChar p with
        | none =>
          have := hp2 hp
          subst this
          simp only [hex.Decode, hp]
        | some a =>
          cases hq : hex.fromHexChar q with
          | none =>
            have := hq2 hq
            subst this
            simp only [hex.Decode, ← hp1, hp, hq]
          | some b =>
            simp only [hex.Decode, ← hp1, ← hq1, hp, hq, ih _ hrest2]

theorem parseEntry_ok_iff (nm : GoString → Except GoError Multiaddr)
    (ai : Multiaddr → Except GoError AddrInfo) (s : GoString) (p : AddrInfo) :
    parseEntry nm ai s = .ok p ↔ ∃ ma, nm s = .ok ma ∧ ai ma = .ok p := by
  unfold parseEntry
  cases hnm : nm s with
  | error e => simp
  | ok ma => simp

/-! ### Claims on the errors of `trustedPeers`, on `DefaultConfig` and on the receiver -/

/-- C11: when `TrustedPeers` is `pre ++ bad :: post` with every entry of `pre`
parsing, so that `bad` is the malformed entry of lowest index, the error that
`trustedPeers` returns is the very error value of `bad`: the error of
`multiaddr.NewMultiaddr` when `bad` does not decode as a multiaddr, the error
of `peer.AddrInfoFromP2pAddr` when it decodes but yields no peer identity.
Nothing is assumed about `post`: the entries behind `bad` are not examined. -/
theorem trustedPeers_returns_first_entry_error
    (nm : GoString → Except GoError Multiaddr) (ai : Multiaddr → Except GoError AddrInfo)
    (cfg : Config) (bpeers : Bootstrappers) (pre : List GoString) (bad : GoString)
    (post : List GoString) (hsplit : cfg.TrustedPeers = pre ++ bad :: post)
    (hpre : ∀ s ∈ pre, ∃ p, parseEntry nm ai s = .ok p) :
    (∀ e, nm bad = .error e → cfg.trustedPeers nm ai bpeers = ([], some e)) ∧
    (∀ ma e, nm bad = .ok ma → ai ma = .error e →
      cfg.trustedPeers nm ai bpeers = ([], some e)) := by
  have hlen : cfg.TrustedPeers.length ≠ 0 := by
    rw [hsplit]
    simp
  have hrun : ∀ e, parseEntry nm ai bad = .error e →
      cfg.trustedPeers nm ai bpeers = ([], some e) := by
    intro e he
    simp only [Config.trustedPeers, hlen, if_false]
    rw [hsplit]
    exact trustedPeersLoop_first_error nm ai bad post e he pre _ _ hpre
  refine ⟨fun e he => hrun e ?_, fun ma e hma he => hrun e ?_⟩
  · simp only [parseEntry, he]
  · simp only [parseEntry, hma, he]

/-- Instance of C11: after one valid entry, `not-a-valid-address` gives the
error of the multiaddr decoder and `/` the error of the peer-identity
extraction, each time with a further malformed entry behind. -/
theorem trustedPeers_returns_first_entry_error_witness :
    Config.trustedPeers sampleNewMultiaddr sampleAddrInfoFromP2pAddr
      { DefaultConfig with
        TrustedPeers := [ascii "/ipA", ascii "not-a-valid-address", ascii "/"] } []
      = ([], some (GoError.collaborator 1)) ∧
    Config.trustedPeers sampleNewMultiaddr sampleAddrInfoFromP2pAddr
      { DefaultConfig with
        TrustedPeers := [ascii "/ipA", ascii "/", ascii "not-a-valid-address"] } []
      = ([], some (GoError.collaborator 2)) :=
  ⟨(trustedPeers_returns_first_entry_error sampleNewMultiaddr sampleAddrInfoFromP2pAddr
      { DefaultConfig with
        TrustedPeers := [ascii "/ipA", ascii "not-a-valid-address", ascii "/"] } []
      [ascii "/ipA"] (ascii "not-a-valid-address") [ascii "/"] rfl
      (by
        intro s hs
        rw [List.mem_singleton] at hs
        subst hs
        exact ⟨⟨[65], [⟨ascii "/ip"⟩]⟩, rfl⟩)).1 (GoError.collaborator 1) rfl,
   (trustedPeers_returns_first_entry_error sampleNewMultiaddr sampleAddrInfoFromP2pAddr
      { DefaultConfig with
        TrustedPeers := [ascii "/ipA", ascii "/", ascii "not-a-valid-address"] } []
      [ascii "/ipA"] (ascii "/") [ascii "not-a-valid-address"] rfl
      (by
        intro s hs
        rw [List.mem_singleton] at hs
        subst hs
        exact ⟨⟨[65], [⟨ascii "/ip"⟩]⟩, rfl⟩)).2 ⟨ascii "/"⟩ (GoError.collaborator 2)
      rfl rfl⟩

/-- C12: `DefaultConfig` is the Config with an empty `TrustedHash`, an empty
`TrustedPeers`, `PeersLimit` 3, and both intervals 30 seconds, which is
30000000000 nanoseconds; it is a constant, with no input and no error result. -/
theorem DefaultConfig_field_values :
    DefaultConfig.TrustedHash = [] ∧
    DefaultConfig.TrustedPeers = [] ∧
    DefaultConfig.PeersLimit = 3 ∧
    DefaultConfig.DiscoveryInterval = 30 * time.Second ∧
    DefaultConfig.AdvertiseInterval = 30 * time.Second ∧
    30 * time.Second = 30000000000 := by
  decide

/-- C13: a call of `trustedPeers` or of `trustedHash` leaves the struct behind
the receiver as it was, on success and on every error exit: the state reached
is the Config the call started from, field by field, and the values returned
are those of the resolvers. -/
theorem resolvers_leave_config_unchanged
    (nm : GoString → Except GoError Multiaddr) (ai : Multiaddr → Except GoError AddrInfo)
    (GenesisFor : Network → GoString × Option GoError)
    (cfg : Config) (bpeers : Bootstrappers) (net : Network) :
    Config.trustedPeersSt nm ai bpeers cfg = (cfg.trustedPeers nm ai bpeers, cfg) ∧
    Config.trustedHashSt GenesisFor net cfg = (cfg.trustedHash GenesisFor net, cfg) ∧
    (Config.trustedPeersSt nm ai bpeers cfg).2.TrustedHash = cfg.TrustedHash ∧
    (Config.trustedPeersSt nm ai bpeers cfg).2.TrustedPeers = cfg.TrustedPeers ∧
    (Config.trustedPeersSt nm ai bpeers cfg).2.PeersLimit = cfg.PeersLimit ∧
    (Config.trustedPeersSt nm ai bpeers cfg).2.DiscoveryInterval = cfg.DiscoveryInterval ∧
    (Config.trustedPeersSt nm ai bpeers cfg).2.AdvertiseInterval = cfg.AdvertiseInterval ∧
    (Config.trustedHashSt GenesisFor net cfg).2.TrustedHash = cfg.TrustedHash ∧
    (Config.trustedHashSt GenesisFor net cfg).2.TrustedPeers = cfg.TrustedPeers ∧
    (Config.trustedHashSt GenesisFor net cfg).2.PeersLimit = cfg.PeersLimit ∧
    (Config.trustedHashSt GenesisFor net cfg).2.DiscoveryInterval = cfg.DiscoveryInterval ∧
    (Config.trustedHashSt GenesisFor net cfg).2.AdvertiseInterval = cfg.AdvertiseInterval := by
  have hp : Config.trustedPeersSt nm ai bpeers cfg = (cfg.trustedPeers nm ai bpeers, cfg) := by
    unfold Config.trustedPeersSt Config.trustedPeers
    by_cases h0 : cfg.TrustedPeers.length = 0
    · simp only [h0, if_true]
    · simp only [h0, if_false]
      exact trustedPeersLoopSt_eq nm ai cfg _ _ _
  have hh : Config.trustedHashSt GenesisFor net cfg = (cfg.trustedHash GenesisFor net, cfg) := by
    unfold Config.trustedHashSt Config.trustedHash
    by_cases h0 : cfg.TrustedHash = []
    · simp only [h0, if_true]
      rcases hg : GenesisFor net with ⟨gen, _ | err⟩ <;> rfl
    · simp only [h0, if_false]
  rw [hp, hh]
  simp

/-! ### Claims on accepted entries, on error values and on the shape of the hash -/

/-- C14, as stated, fails: with a peer-identity extraction that, like the
library's `SplitAddr`, leaves the address set nil for an address that is only
a `/p2p/<id>` component, `trustedPeers` resolves such an entry successfully
and the resulting peer has an empty address set. -/
theorem trustedPeers_accepts_peer_id_only_entry :
    Config.trustedPeers sampleNewMultiaddr splitAddrInfoFromP2pAddr
      { DefaultConfig with
        TrustedPeers := [ascii "/p2p/QmS3zcG7LhYZYSJMhyRZvTddvbNUqtt8BJpaSs6mi1K5Va"] } []
      = ([⟨ascii "QmS3zcG7LhYZYSJMhyRZvTddvbNUqtt8BJpaSs6mi1K5Va", []⟩], none) ∧
    ¬ (∀ p ∈ (Config.trustedPeers sampleNewMultiaddr splitAddrInfoFromP2pAddr
      { DefaultConfig with
        TrustedPeers := [ascii "/p2p/QmS3zcG7LhYZYSJMhyRZvTddvbNUqtt8BJpaSs6mi1K5Va"] } []).1,
      p.Addrs ≠ []) := by
  decide

/-- C14, amended: when `trustedPeers` succeeds on a non-empty `TrustedPeers`,
every entry decoded as a multiaddr and yielded a peer identity, and the output
at each index is exactly the peer that `peer.AddrInfoFromP2pAddr` returned for
that entry, its address set unchanged; `trustedPeers` puts no condition of its
own on the address set. -/
theorem trustedPeers_success_returns_extracted_peers
    (nm : GoString → Except GoError Multiaddr) (ai : Multiaddr → Except GoError AddrInfo)
    (cfg : Config) (bpeers : Bootstrappers) (out : List AddrInfo)
    (hne : cfg.TrustedPeers ≠ [])
    (hok : cfg.trustedPeers nm ai bpeers = (out, none)) :
    out.length = cfg.TrustedPeers.length ∧
    ∀ (i : Nat) (hi : i < cfg.TrustedPeers.length),
      ∃ ma p, nm (cfg.TrustedPeers.get ⟨i, hi⟩) = .ok ma ∧ ai ma = .ok p ∧
        out[i]? = some p := by
  have hlen : cfg.TrustedPeers.length ≠ 0 := by
    intro h0
    exact hne (List.length_eq_zero.mp h0)
  have hloop : trustedPeersLoop nm ai cfg.TrustedPeers ([] : List AddrInfo).length
      ([] ++ List.replicate cfg.TrustedPeers.length AddrInfo.zero) = (out, none) := by
    simpa [Config.trustedPeers, hlen] using hok
  obtain ⟨ps, hps, hout⟩ := trustedPeersLoop_success_inv nm ai cfg.TrustedPeers [] out hloop
  rw [List.nil_append] at hout
  subst hout
  have hl : cfg.TrustedPeers.length = out.length := hps.length_eq
  refine ⟨hl.symm, fun i hi => ?_⟩
  have hi2 : i < out.length := hl ▸ hi
  obtain ⟨ma, hma, hp⟩ := (parseEntry_ok_iff nm ai _ _).mp (hps.get hi hi2)
  exact ⟨ma, out.get ⟨i, hi2⟩, hma, hp, by simp [List.getElem?_eq_getElem hi2]⟩

/-- Instance of amended C14: an entry with a transport address and a peer id. -/
theorem trustedPeers_success_returns_extracted_peers_witness :
    ([⟨ascii "QmA", [⟨ascii "/ip4/1.2.3.4/tcp/80"⟩]⟩] : List AddrInfo).length
      = ({ DefaultConfig with
           TrustedPeers := [ascii "/ip4/1.2.3.4/tcp/80/p2p/QmA"] } : Config).TrustedPeers.length :=
  (trustedPeers_success_returns_extracted_peers sampleNewMultiaddr splitAddrInfoFromP2pAddr
    { DefaultConfig with TrustedPeers := [ascii "/ip4/1.2.3.4/tcp/80/p2p/QmA"] } []
    [⟨ascii "QmA", [⟨ascii "/ip4/1.2.3.4/tcp/80"⟩]⟩] (by decide) (by decide)).1

/-- C15, as stated, fails: the two different odd-length hex texts `a` and `b`
are both malformed and both yield the one error value `ErrLength`. -/
theorem trustedHash_distinct_texts_same_error :
    ascii "a" ≠ ascii "b" ∧ malformedHex (ascii "a") ∧ malformedHex (ascii "b") ∧
    (Config.trustedHash sampleGenesisFor { DefaultConfig with TrustedHash := ascii "a" }
      (ascii "testnet")).2 = some GoError.ErrLength ∧
    (Config.trustedHash sampleGenesisFor { DefaultConfig with TrustedHash := ascii "b" }
      (ascii "testnet")).2 = some GoError.ErrLength := by
  decide

/-- C15, amended: when `trustedHash` fails on a malformed text (a non-empty
`TrustedHash`, or the genesis text of a registered network), the error is the
error value of `hex.DecodeString` as it is: `InvalidByteError` of the first
byte outside `[0-9a-fA-F]` when the text has one, `ErrLength` otherwise.  No
more of the text than that byte is kept in the error. -/
theorem trustedHash_error_is_first_bad_byte_or_length
    (GenesisFor : Network → GoString × Option GoError) (cfg : Config) (net : Network)
    (text : GoString)
    (htext : (cfg.TrustedHash ≠ [] ∧ text = cfg.TrustedHash) ∨
      (cfg.TrustedHash = [] ∧ GenesisFor net = (text, none)))
    (hbad : malformedHex text) :
    (cfg.trustedHash GenesisFor net).2 = some (hexErrorOf text) := by
  have h : cfg.trustedHash GenesisFor net = hex.Decode text := by
    rcases htext with ⟨hne, rfl⟩ | ⟨hempty, hreg⟩
    · simp [Config.trustedHash, hne, hex.DecodeString]
    · simp [Config.trustedHash, hempty, hreg, hex.DecodeString]
  rw [h]
  exact Decode_err_eq_hexErrorOf text hbad

/-- Instance of amended C15: `12zq` fails with `InvalidByteError` of `z`. -/
theorem trustedHash_error_is_first_bad_byte_or_length_witness :
    malformedHex (ascii "12zq") ∧
    (Config.trustedHash sampleGenesisFor { DefaultConfig with TrustedHash := ascii "12zq" }
      (ascii "testnet")).2 = some (GoError.InvalidByteError 122) :=
  ⟨by decide,
   (trustedHash_error_is_first_bad_byte_or_length sampleGenesisFor
      { DefaultConfig with TrustedHash := ascii "12zq" } (ascii "testnet") (ascii "12zq")
      (Or.inl ⟨by decide, rfl⟩) (by decide)).trans (by decide)⟩

/-- C16: the Config returned by `DefaultConfig` resolves to the network
defaults: `trustedPeers` returns the bootstrapper list with a nil error, and
on a network with registered genesis text `g`, `trustedHash` returns the
hexadecimal decoding of `g`. -/
theorem DefaultConfig_resolves_to_network_defaults
    (nm : GoString → Except GoError Multiaddr) (ai : Multiaddr → Except GoError AddrInfo)
    (GenesisFor : Network → GoString × Option GoError)
    (b : Bootstrappers) (net : Network) (g : GoString)
    (hreg : GenesisFor net = (g, none)) :
    DefaultConfig.trustedPeers nm ai b = (b, none) ∧
    DefaultConfig.trustedHash GenesisFor net = hex.DecodeString g ∧
    (¬ malformedHex g → DefaultConfig.trustedHash GenesisFor net = (specHexDecode g, none)) := by
  have h1 : DefaultConfig.trustedHash GenesisFor net = hex.DecodeString g := by
    simp [Config.trustedHash, DefaultConfig, hreg]
  refine ⟨by simp [Config.trustedPeers, DefaultConfig], h1, fun hg => ?_⟩
  rw [h1]
  exact Decode_eq_specHexDecode g hg

/-- Instance of C16: the sample network `testnet` and a two-peer bootstrapper list. -/
theorem DefaultConfig_resolves_to_network_defaults_witness :
    DefaultConfig.trustedPeers sampleNewMultiaddr sampleAddrInfoFromP2pAddr
      [⟨[81], []⟩, ⟨[82], [⟨ascii "/ip"⟩]⟩] = ([⟨[81], []⟩, ⟨[82], [⟨ascii "/ip"⟩]⟩], none) ∧
    DefaultConfig.trustedHash sampleGenesisFor (ascii "testnet") = ([0xab, 0x12], none) :=
  ⟨(DefaultConfig_resolves_to_network_defaults sampleNewMultiaddr sampleAddrInfoFromP2pAddr
      sampleGenesisFor [⟨[81], []⟩, ⟨[82], [⟨ascii "/ip"⟩]⟩] (ascii "testnet") (ascii "ab12")
      (by decide)).1,
   ((DefaultConfig_resolves_to_network_defaults sampleNewMultiaddr sampleAddrInfoFromP2pAddr
      sampleGenesisFor [] (ascii "testnet") (ascii "ab12")
      (by decide)).2.2 (by decide)).trans (by decide)⟩

/-- C17: when a non-empty `TrustedHash` resolves to bytes `h`, then `h` has
exactly `len(TrustedHash) / 2` bytes, at least one, and every Config whose
`TrustedHash` differs from it only in the case of the letters `a`-`f` resolves
to the same bytes `h`. -/
theorem trustedHash_length_and_letter_case
    (GenesisFor : Network → GoString × Option GoError) (cfg : Config) (net : Network)
    (h : List Nat) (hne : cfg.TrustedHash ≠ [])
    (hok : cfg.trustedHash GenesisFor net = (h, none)) :
    h.length = cfg.TrustedHash.length / 2 ∧ 1 ≤ h.length ∧
    ∀ (GenesisFor2 : Network → GoString × Option GoError) (cfg2 : Config) (net2 : Network),
      List.Forall₂ sameUpToHexCase cfg.TrustedHash cfg2.TrustedHash →
      cfg2.trustedHash GenesisFor2 net2 = (h, none) := by
  have hdec : hex.Decode cfg.TrustedHash = (h, none) := by
    simpa [Config.trustedHash, hne, hex.DecodeString] using hok
  have hlen : h.length = cfg.TrustedHash.length / 2 := by
    have := Decode_length cfg.TrustedHash (by rw [hdec])
    rwa [hdec] at this
  have hnil : h ≠ [] := by
    have := Decode_ne_nil cfg.TrustedHash hne (by rw [hdec])
    rwa [hdec] at this
  refine ⟨hlen, List.length_pos.mpr hnil, fun G2 cfg2 net2 hcase => ?_⟩
  have hne2 : cfg2.TrustedHash ≠ [] := by
    intro h0
    have hl := hcase.length_eq
    rw [h0, List.length_nil] at hl
    exact hne (List.length_eq_zero.mp hl)
  simp only [Config.trustedHash, hne2, if_false, hex.DecodeString]
  rw [← Decode_sameUpToHexCase _ _ hcase]
  exact hdec

/-- Instance of C17: `aBcD` and `AbCd` both resolve to the two bytes `[0xab, 0xcd]`. -/
theorem trustedHash_length_and_letter_case_witness :
    ([0xab, 0xcd] : List Nat).length = (ascii "aBcD").length / 2 ∧
    Config.trustedHash sampleGenesisFor { DefaultConfig with TrustedHash := ascii "AbCd" }
      (ascii "nonet") = ([0xab, 0xcd], none) :=
  ⟨by decide,
   (trustedHash_length_and_letter_case sampleGenesisFor
      { DefaultConfig with TrustedHash := ascii "aBcD" } (ascii "testnet") [0xab, 0xcd]
      (by decide) (by decide)).2.2 sampleGenesisFor
      { DefaultConfig with TrustedHash := ascii "AbCd" } (ascii "nonet") (by decide)⟩

end services
